import Mathlib

/-!
Shallow embedding of the `argument-parser-extended` command-line parser
(`src/index.js`) in Lean 4.

Modelling conventions:
* JavaScript runtime values that flow through the parser are modelled by the
  inductive type `JsVal` (`undefined`, strings, numbers, booleans, arrays).
* JavaScript numbers are modelled as exact rationals (`ℚ`).  All claims under
  study only involve integer-valued numbers, where IEEE doubles are exact.
* JavaScript objects used as string-keyed maps (`this.values`, `this.config`,
  `this.shortFlags`) are modelled as insertion-ordered association lists; a
  missing key reads as `JsVal.vUndefined`, and assignment to an existing key
  keeps its position (JS object semantics).
* Reading a file (`fs.readFileSync`, type `file` flags) is an external
  collaborator (spec section 1 declares it out of scope); it is threaded
  through as an explicit parameter `fsRead : String → String` returning the
  file contents.  The `file.json` / `file.stream` refinements are likewise out
  of the modelled scope.
* Regexes stored in a flag config (`regex` attribute) are modelled as a test
  predicate together with their source text; user validators as functions
  returning either a replacement value, `none` (JS `undefined`, keep value) or
  an error message (JS exception).
* Error reporting (`fError` + `util.format`) is modelled with `Except String`,
  carrying the formatted message.
-/

/-- JavaScript runtime values handled by the parser. -/
inductive JsVal where
  | vUndefined : JsVal
  | vStr : String → JsVal
  | vNum : ℚ → JsVal
  | vBool : Bool → JsVal
  | vArr : List JsVal → JsVal
deriving Repr

mutual

/-- Structural (JS `===`-style) equality test on values. -/
def jsValBEq : JsVal → JsVal → Bool
  | .vUndefined, .vUndefined => true
  | .vStr a, .vStr b => a = b
  | .vNum a, .vNum b => a = b
  | .vBool a, .vBool b => a = b
  | .vArr a, .vArr b => jsValListBEq a b
  | _, _ => false

/-- Elementwise equality test on value lists. -/
def jsValListBEq : List JsVal → List JsVal → Bool
  | [], [] => true
  | a :: as1, b :: bs1 => jsValBEq a b && jsValListBEq as1 bs1
  | _, _ => false

end

mutual

theorem jsValBEq_refl : ∀ a : JsVal, jsValBEq a a = true
  | .vUndefined => rfl
  | .vStr _ => by simp [jsValBEq]
  | .vNum _ => by simp [jsValBEq]
  | .vBool _ => by simp [jsValBEq]
  | .vArr xs => by simp [jsValBEq, jsValListBEq_refl xs]

theorem jsValListBEq_refl : ∀ xs : List JsVal, jsValListBEq xs xs = true
  | [] => rfl
  | x :: rest => by simp [jsValListBEq, jsValBEq_refl x, jsValListBEq_refl rest]

end

mutual

theorem jsValBEq_eq : ∀ a b : JsVal, jsValBEq a b = true → a = b
  | .vUndefined, .vUndefined, _ => rfl
  | .vStr _, .vStr _, h => by simpa [jsValBEq] using h
  | .vNum _, .vNum _, h => by simpa [jsValBEq] using h
  | .vBool _, .vBool _, h => by simpa [jsValBEq] using h
  | .vArr xs, .vArr ys, h => by
    rw [jsValListBEq_eq xs ys (by simpa [jsValBEq] using h)]
  | .vUndefined, .vStr _, h => by simp [jsValBEq] at h
  | .vUndefined, .vNum _, h => by simp [jsValBEq] at h
  | .vUndefined, .vBool _, h => by simp [jsValBEq] at h
  | .vUndefined, .vArr _, h => by simp [jsValBEq] at h
  | .vStr _, .vUndefined, h => by simp [jsValBEq] at h
  | .vStr _, .vNum _, h => by simp [jsValBEq] at h
  | .vStr _, .vBool _, h => by simp [jsValBEq] at h
  | .vStr _, .vArr _, h => by simp [jsValBEq] at h
  | .vNum _, .vUndefined, h => by simp [jsValBEq] at h
  | .vNum _, .vStr _, h => by simp [jsValBEq] at h
  | .vNum _, .vBool _, h => by simp [jsValBEq] at h
  | .vNum _, .vArr _, h => by simp [jsValBEq] at h
  | .vBool _, .vUndefined, h => by simp [jsValBEq] at h
  | .vBool _, .vStr _, h => by simp [jsValBEq] at h
  | .vBool _, .vNum _, h => by simp [jsValBEq] at h
  | .vBool _, .vArr _, h => by simp [jsValBEq] at h
  | .vArr _, .vUndefined, h => by simp [jsValBEq] at h
  | .vArr _, .vStr _, h => by simp [jsValBEq] at h
  | .vArr _, .vNum _, h => by simp [jsValBEq] at h
  | .vArr _, .vBool _, h => by simp [jsValBEq] at h

theorem jsValListBEq_eq : ∀ xs ys : List JsVal, jsValListBEq xs ys = true → xs = ys
  | [], [], _ => rfl
  | x :: rest, y :: rest2, h => by
    have h1 : jsValBEq x y = true := by
      have := h
      simp [jsValListBEq] at this
      exact this.1
    have h2 : jsValListBEq rest rest2 = true := by
      have := h
      simp [jsValListBEq] at this
      exact this.2
    rw [jsValBEq_eq x y h1, jsValListBEq_eq rest rest2 h2]
  | [], _ :: _, h => by simp [jsValListBEq] at h
  | _ :: _, [], h => by simp [jsValListBEq] at h

end

instance : DecidableEq JsVal := fun a b =>
  decidable_of_iff (jsValBEq a b = true)
    ⟨jsValBEq_eq a b, fun h => h ▸ jsValBEq_refl a⟩

/-- JavaScript truthiness (`if (x)`) for the values that occur in the parser:
`undefined`, `''`, `false` and `0` are falsy, everything else (including any
array object) is truthy. -/
def jsTruthy : JsVal → Bool
  | .vUndefined => false
  | .vStr s => !s.data.isEmpty
  | .vNum q => decide (q ≠ 0)
  | .vBool b => b
  | .vArr _ => true

mutual

/-- JavaScript `String(value)` coercion for the values above (arrays join
their stringified elements with commas). -/
def jsToStr : JsVal → String
  | .vUndefined => "undefined"
  | .vStr s => s
  | .vNum q => if q.den = 1 then toString q.num else toString q.num ++ "." ++ toString q.den
  | .vBool true => "true"
  | .vBool false => "false"
  | .vArr xs => jsToStrArr xs

/-- Stringification of an array, `Array.prototype.join(',')`. -/
def jsToStrArr : List JsVal → String
  | [] => ""
  | [x] => jsToStr x
  | x :: y :: rest => jsToStr x ++ "," ++ jsToStrArr (y :: rest)

end

/-- The single quote character (JS `0x27`). -/
def squote : Char := Char.ofNat 39

/-- The double quote character. -/
def dquote : Char := Char.ofNat 34

/-- Character class `["']` of the tokenizing regex. -/
def isQuoteChar (c : Char) : Bool := c = dquote ∨ c = squote

/-- JavaScript `\s` (whitespace) for the characters relevant here. -/
def isWsChar (c : Char) : Bool :=
  c = ' ' ∨ c = '\t' ∨ c = '\n' ∨ c = '\r' ∨ c = Char.ofNat 11 ∨ c = Char.ofNat 12 ∨
  c = Char.ofNat 160 ∨ c = Char.ofNat 65279

/-- JavaScript line terminators, which `.` in a regex does not match. -/
def isLineTerm (c : Char) : Bool :=
  c = '\n' ∨ c = '\r' ∨ c = Char.ofNat 8232 ∨ c = Char.ofNat 8233

/-- JavaScript `\w`: ASCII letters, digits and underscore. -/
def isWordChar (c : Char) : Bool := c.isAlphanum ∨ c = '_'

/-- Characters allowed after the first character of a flag name,
the class `[\w_-]` of `cmdLineRegex` and `flagRegex`. -/
def isFlagNameChar (c : Char) : Bool := isWordChar c ∨ c = '-'

/-- The bare-value character class `[^"',=\s]` of `cmdLineRegex`
(first segment of a value token). -/
def isBare1 (c : Char) : Bool :=
  !(isQuoteChar c ∨ c = ',' ∨ c = '=' ∨ isWsChar c)

/-- The bare-value character class `[^'',\s]` of `cmdLineRegex`
(comma-continuation segments; note it permits double quotes and equals). -/
def isBare2 (c : Char) : Bool :=
  !(c = squote ∨ c = ',' ∨ isWsChar c)

/-- Embeds `trimQuotes` (src/index.js line 13): strip one matching pair of
surrounding quotes, `str.replace(/^(['"])(.*?)\1$/, '$2')`.  The regex matches
exactly when the string has length at least two, starts with a quote
character, ends with the same character, and the part in between contains no
line terminator (JS `.` does not match those). -/
def trimQuotes (s : String) : String :=
  match s.data with
  | [] => s
  | c :: rest =>
    if isQuoteChar c && !rest.isEmpty && rest.getLast? == some c
        && rest.dropLast.all (fun x => !isLineTerm x) then
      String.mk rest.dropLast
    else s

/-!  Lodash word splitting, `_.camelCase` and `_.kebabCase`.

Lodash is an external library; these model its behaviour on the ASCII
alphanumeric-plus-separator names that the parser's flag grammar
(`/^[\w_][\w_-]*$/`) admits: split into maximal alphanumeric runs, then split
each run at letter/digit boundaries, at a lowercase→uppercase boundary, and
before the last uppercase of an uppercase run that is followed by lowercase
(lodash's ordinal-suffix special cases are not modelled; no claim uses such
names). -/

/-- Does a new lodash word start at character `c`, given the previous
character `p` of the current word and the following characters? -/
def wordBoundary (p c : Char) (rest : List Char) : Bool :=
  (p.isDigit != c.isDigit) || (p.isLower && c.isUpper) ||
  (p.isUpper && c.isUpper && (match rest.head? with
    | some n => n.isLower
    | none => false))

/-- Word-splitting core: `acc` is the current word, reversed. -/
def wordsCore : List Char → List Char → List (List Char)
  | acc, [] => if acc.isEmpty then [] else [acc.reverse]
  | acc, c :: rest =>
    if !c.isAlphanum then
      (if acc.isEmpty then [] else [acc.reverse]) ++ wordsCore [] rest
    else
      match acc with
      | [] => wordsCore [c] rest
      | p :: _ =>
        if wordBoundary p c rest then acc.reverse :: wordsCore [c] rest
        else wordsCore (c :: acc) rest

/-- Lodash `_.words` (ASCII model). -/
def jsWords (s : String) : List String :=
  (wordsCore [] s.data).map String.mk

/-- Lowercase a word and capitalize its first letter. -/
def capitalizeLower (w : String) : String :=
  match w.data with
  | [] => w
  | c :: rest => String.mk (c.toUpper :: rest.map Char.toLower)

/-- Embeds lodash `_.camelCase` (used on flag tokens in `parse`, line 435). -/
def camelCase (s : String) : String :=
  match jsWords s with
  | [] => ""
  | w :: ws => String.mk (w.data.map Char.toLower) ++ String.join (ws.map capitalizeLower)

/-- Embeds lodash `_.kebabCase` (used for `printName`, line 51). -/
def kebabCase (s : String) : String :=
  String.intercalate "-" ((jsWords s).map (fun w => String.mk (w.data.map Char.toLower)))

/-- One token produced by the tokenizer `splitArgs` (src/index.js 130-150). -/
structure Token where
  isFlag : Bool
  isShort : Bool
  value : String
deriving DecidableEq, Repr

/-- Matches the flag alternative `(--?)([\w_][\w_-]*)` of `cmdLineRegex` at
the head of the input.  Returns `(isLongDash, flagText, rest)`:
`isLongDash = true` when the dash group matched `--`.  Mirrors the regex
engine: the greedy `(--?)` first tries two dashes, and backtracking to a
single dash cannot succeed when the character after `--` is not a word
character, because that character is then a dash (not a word character)
or fails both ways. -/
def flagMatch : List Char → Option (Bool × List Char × List Char)
  | c :: rest =>
    if c = '-' then
      match rest with
      | c2 :: rest2 =>
        if c2 = '-' then
          match rest2 with
          | c3 :: rest3 =>
            if isWordChar c3 then
              some (true, c3 :: rest3.takeWhile isFlagNameChar,
                    rest3.drop (rest3.takeWhile isFlagNameChar).length)
            else none
          | [] => none
        else
          if isWordChar c2 then
            some (false, c2 :: rest2.takeWhile isFlagNameChar,
                  rest2.drop (rest2.takeWhile isFlagNameChar).length)
          else none
      | [] => none
    else none
  | [] => none

/-- Matches the quoted alternative `["'].*?["']` at the head of the input:
an opening quote, then lazily up to the nearest quote character (of either
kind), with no line terminator in between.  Returns `(consumed, rest)`. -/
def matchQuoted : List Char → Option (List Char × List Char)
  | c :: rest =>
    if isQuoteChar c then
      let pre := rest.takeWhile (fun x => !isQuoteChar x && !isLineTerm x)
      match rest.drop pre.length with
      | q2 :: rest2 => if isQuoteChar q2 then some (c :: (pre ++ [q2]), rest2) else none
      | [] => none
    else none
  | [] => none

/-- Matches the first value segment `(?:["'].*?["']|[^"',=\s]+)`. -/
def matchSeg1 (cs : List Char) : Option (List Char × List Char) :=
  match matchQuoted cs with
  | some r => some r
  | none =>
    match cs with
    | c :: rest =>
      if isBare1 c then
        let run := rest.takeWhile isBare1
        some (c :: run, rest.drop run.length)
      else none
    | [] => none

/-- Matches a comma-continuation segment `(?:["'].*?["']|[^'',\s]+)`. -/
def matchSeg2 (cs : List Char) : Option (List Char × List Char) :=
  match matchQuoted cs with
  | some r => some r
  | none =>
    match cs with
    | c :: rest =>
      if isBare2 c then
        let run := rest.takeWhile isBare2
        some (c :: run, rest.drop run.length)
      else none
    | [] => none

/-- Greedy loop for `(?:,(?:["'].*?["']|[^'',\s]+))*`: consume as many
comma-plus-segment groups as possible.  Returns `(consumed, rest)`.  The fuel
only bounds the recursion; each iteration consumes at least two characters,
so `length + 1` fuel is never exhausted. -/
def contLoop : Nat → List Char → List Char × List Char
  | 0, cs => ([], cs)
  | fuel + 1, cs =>
    match cs with
    | c :: rest =>
      if c = ',' then
        match matchSeg2 rest with
        | some (seg, rest2) =>
          let more := contLoop fuel rest2
          (',' :: (seg ++ more.1), more.2)
        | none => ([], cs)
      else ([], cs)
    | [] => ([], cs)

/-- Scanner core for `String.prototype.replace` with the global regex
`cmdLineRegex` (src/index.js line 122): at each position try the flag
alternative, then the value alternative; on failure advance one character
(unmatched characters are silently dropped).  A matched `-xyz` expands into
one short token per character (lines 133-140); a `--name` match yields one
long-flag token; a value match yields one non-flag token.  The fuel only
bounds the recursion; each step consumes at least one character, so
`length + 1` fuel is never exhausted. -/
def scanAux : Nat → List Char → List Token
  | 0, _ => []
  | _ + 1, [] => []
  | fuel + 1, c :: rest =>
    match flagMatch (c :: rest) with
    | some (isLong, name, rest') =>
      (if isLong then [⟨true, false, String.mk name⟩]
       else name.map (fun ch => ⟨true, true, String.mk [ch]⟩)) ++ scanAux fuel rest'
    | none =>
      match matchSeg1 (c :: rest) with
      | some (seg, rest1) =>
        let cont := contLoop (rest1.length + 1) rest1
        ⟨false, false, String.mk (seg ++ cont.1)⟩ :: scanAux fuel cont.2
      | none => scanAux fuel rest

/-- Embeds `ArgumentParser.prototype.splitArgs` (src/index.js 130-150). -/
def splitArgs (line : String) : List Token :=
  scanAux (line.data.length + 1) line.data

/-- Base-10 value of a digit run. -/
def decListVal (cs : List Char) : Nat :=
  cs.foldl (fun a c => 10 * a + (c.toNat - 48)) 0

/-- Hexadecimal digit test. -/
def isHexDigit (c : Char) : Bool :=
  c.isDigit || (c ≥ 'a' && c ≤ 'f') || (c ≥ 'A' && c ≤ 'F')

/-- Value of a hexadecimal digit. -/
def hexDigitVal (c : Char) : Nat :=
  if c.isDigit then c.toNat - 48
  else if c.isLower then c.toNat - 87
  else c.toNat - 55

/-- Base-16 value of a hex-digit run. -/
def hexListVal (cs : List Char) : Nat :=
  cs.foldl (fun a c => 16 * a + hexDigitVal c) 0

/-- Core of JavaScript `parseInt(x)` (no explicit radix) after whitespace and
sign handling: a `0x`/`0X` prefix switches to hexadecimal, otherwise the
maximal leading decimal-digit run is read; no digits means `NaN` (`none`). -/
def parseIntCore (sgn : Int) (cs : List Char) : Option Int :=
  match cs with
  | c1 :: c2 :: r =>
    if c1 = '0' && (c2 = 'x' || c2 = 'X') then
      let run := r.takeWhile isHexDigit
      if run.isEmpty then none else some (sgn * (hexListVal run : Int))
    else
      let run := cs.takeWhile Char.isDigit
      if run.isEmpty then none else some (sgn * (decListVal run : Int))
  | _ =>
    let run := cs.takeWhile Char.isDigit
    if run.isEmpty then none else some (sgn * (decListVal run : Int))

/-- JavaScript `parseInt(string)`: skip leading whitespace, optional sign,
then `parseIntCore`.  `none` models `NaN`. -/
def parseIntJs (s : String) : Option Int :=
  match s.data.dropWhile isWsChar with
  | [] => none
  | c :: rest =>
    if c = '-' then parseIntCore (-1) rest
    else if c = '+' then parseIntCore 1 rest
    else parseIntCore 1 (c :: rest)

/-- Core of JavaScript `parseFloat` after whitespace and sign handling:
optional integer digits, optional fraction, optional exponent; at least one
digit must be present in the integer or fraction part.  The literal
`Infinity` yields no digits and therefore `none`, which is observationally
the same as the source's subsequent `isFinite` rejection. -/
def parseFloatCore (cs : List Char) : Option ℚ :=
  let intRun := cs.takeWhile Char.isDigit
  let cs1 := cs.drop intRun.length
  let fr : List Char × List Char :=
    match cs1 with
    | c :: rest =>
      if c = '.' then (rest.takeWhile Char.isDigit, rest.drop (rest.takeWhile Char.isDigit).length)
      else ([], cs1)
    | [] => ([], cs1)
  if intRun.isEmpty && fr.1.isEmpty then none
  else
    let mantissa : ℚ := (decListVal intRun : ℚ) + (decListVal fr.1 : ℚ) / ((10 : ℚ) ^ fr.1.length)
    let e : Int :=
      match fr.2 with
      | c :: rest =>
        if c = 'e' || c = 'E' then
          match rest with
          | c2 :: rest2 =>
            if c2 = '-' then -((decListVal (rest2.takeWhile Char.isDigit) : Int))
            else if c2 = '+' then (decListVal (rest2.takeWhile Char.isDigit) : Int)
            else (decListVal ((c2 :: rest2).takeWhile Char.isDigit) : Int)
          | [] => 0
        else 0
      | [] => 0
    some (mantissa * (10 : ℚ) ^ e)

/-- JavaScript `parseFloat(string)`.  `none` models a non-finite result
(`NaN` or `Infinity`), which the numeric pipeline rejects. -/
def parseFloatJs (s : String) : Option ℚ :=
  match s.data.dropWhile isWsChar with
  | [] => none
  | c :: rest =>
    if c = '-' then (parseFloatCore rest).map (fun q => -q)
    else if c = '+' then parseFloatCore rest
    else parseFloatCore (c :: rest)

/-- Truncation toward zero, as JS `parseInt` applied to a decimal rendering. -/
def ratTrunc (q : ℚ) : Int := if 0 ≤ q then ⌊q⌋ else ⌈q⌉

/-- JavaScript `parseFloat(value)` on an arbitrary value: the argument is
coerced to a string first; a finite number coerces back to itself exactly. -/
def parseFloatOfVal : JsVal → Option ℚ
  | .vNum q => some q
  | v => parseFloatJs (jsToStr v)

/-- JavaScript `parseInt(value)` on an arbitrary value. -/
def parseIntOfVal : JsVal → Option Int
  | .vNum q => if q.den = 1 then some q.num else some (ratTrunc q)
  | v => parseIntJs (jsToStr v)

/-- Models `value.toString().indexOf('.') > -1` (src/index.js line 160). -/
def jsHasDot (v : JsVal) : Bool :=
  (jsToStr v).data.any (fun c => c = '.')

/-- One flag's configuration object.  Fields mirror the attributes consumed
by the source; `printName`, `type` and `subType` are filled in by the
constructor (normalization).  The `file` sub-options (`json`/`stream`/
`encoding`) belong to the out-of-scope file collaborator and are not carried.
A `regex` is a test predicate paired with its source text; a `validator`
returns a replacement value, `none` (JS `undefined`: keep the value), or an
error message (JS exception). -/
structure FlagConfig where
  type : Option String := none
  subType : Option String := none
  printName : Option String := none
  required : Bool := false
  default : Option JsVal := none
  min : Option ℚ := none
  max : Option ℚ := none
  enum : Option (List JsVal) := none
  regex : Option ((String → Bool) × String) := none
  validator : Option (JsVal → Except String (Option JsVal)) := none
  short : Option String := none
  description : Option String := none

/-- JavaScript truthiness of an optional numeric attribute (`entry.min`,
`entry.max`): absent and `0` are falsy. -/
def qTruthy : Option ℚ → Bool
  | none => false
  | some q => decide (q ≠ 0)

/-- Number formatting for `util.format` `%d` placeholders; exact for the
integral numbers all modelled claims use. -/
def fmtQ (q : ℚ) : String :=
  if q.den = 1 then toString q.num else toString q.num ++ "." ++ toString q.den

/-- Message of the combined out-of-range error (src/index.js line 173). -/
def msgBetween (flag : String) (mn mx : ℚ) : String :=
  s!"Argument for \x27{flag}\x27 must be between to {fmtQ mn} and {fmtQ mx}"

/-- Message of the minimum-bound error (src/index.js line 176). -/
def msgMin (flag : String) (mn : ℚ) : String :=
  s!"Argument for \x27{flag}\x27 must be greater or equal to {fmtQ mn}"

/-- Message of the maximum-bound error (src/index.js line 180). -/
def msgMax (flag : String) (mx : ℚ) : String :=
  s!"Argument for \x27{flag}\x27 must be less or equal to {fmtQ mx}"

/-- Embeds the numeric bound checks of `handleType` (src/index.js 172-181):
if both bounds are (truthily) present and the value lies outside, fail with
the combined message; otherwise check each bound individually.  JavaScript
`&&` short-circuiting makes a bound equal to `0` behave as absent. -/
def checkBounds (mn mx : Option ℚ) (v : ℚ) (flag : String) : Except String ℚ :=
  if qTruthy mn && qTruthy mx && decide (mx.getD 0 < v ∨ mn.getD 0 > v) then
    .error (msgBetween flag (mn.getD 0) (mx.getD 0))
  else if qTruthy mn && decide (v < mn.getD 0) then
    .error (msgMin flag (mn.getD 0))
  else if qTruthy mx && decide (v > mx.getD 0) then
    .error (msgMax flag (mx.getD 0))
  else .ok v

/-- Finish of the `number` case of `handleType` (src/index.js 165-182):
reject non-finite parses, then apply the bound checks. -/
def numFinish (entry : FlagConfig) (p : Option ℚ) (flag : String) : Except String JsVal :=
  match p with
  | none => .error (s!"Could not parse number from argument for \x27{flag}\x27")
  | some v => (checkBounds entry.min entry.max v flag).map .vNum

/-- Models `String.prototype.split(',')`. -/
def splitCommaAux : List Char → List Char → List String
  | acc, [] => [String.mk acc.reverse]
  | acc, c :: rest =>
    if c = ',' then String.mk acc.reverse :: splitCommaAux [] rest
    else splitCommaAux (c :: acc) rest

/-- JavaScript `s.split(',')`. -/
def splitComma (s : String) : List String := splitCommaAux [] s.data

/-- Association-list read, `obj[key]`; a missing key is `undefined`. -/
def lookupVal (vs : List (String × JsVal)) (k : String) : JsVal :=
  match vs.lookup k with
  | some v => v
  | none => .vUndefined

/-- Association-list write, `obj[key] = v`: overwrite in place (keeping the
insertion position) or append. -/
def setVal (vs : List (String × JsVal)) (k : String) (v : JsVal) : List (String × JsVal) :=
  if vs.any (fun p => p.1 = k) then
    vs.map (fun p => if p.1 = k then (k, v) else p)
  else vs ++ [(k, v)]

section Engine

variable (fsRead : String → String)

/-- Embeds the scalar cases of the `switch` in `handleType`
(src/index.js 152-220).  The `array` case of the switch is reached
recursively from `handleType` below only for the element type, which the
constructor validates to never be `array`; if it were, the source would
recurse without bound (modelled as the JS stack-overflow error).  An
unrecognized type falls through the switch and returns `undefined`. -/
def handleTypeScalar (entry : FlagConfig) (value : JsVal) (flag : String) : Except String JsVal :=
  match entry.type with
  | some "boolean" =>
    match value with
    | .vBool false => .ok (.vBool false)
    | _ => .ok (.vBool true)
  | some "integer" =>
    if jsHasDot value then .error (s!"Argument for \x27{flag}\x27 must be an integer value")
    else numFinish entry ((parseIntOfVal value).map (fun i => (i : ℚ))) flag
  | some "number" => numFinish entry (parseFloatOfVal value) flag
  | some "string" =>
    match entry.regex with
    | some r =>
      if !r.1 (jsToStr value) then
        .error (s!"Argument for \x27{flag}\x27 did not match the regular expression {r.2}")
      else .ok value
    | none => .ok value
  | some "file" => .ok (.vStr (fsRead (jsToStr value)))
  | some "array" => .error "RangeError: Maximum call stack size exceeded"
  | _ => .ok .vUndefined

/-- Embeds the element loop of the `array` case (src/index.js 196-199):
each element is quote-trimmed and then run through `handleType` with the
derived element spec; a non-string element makes `trimQuotes` throw a
`TypeError` in the source. -/
def handleElems (subEntry : FlagConfig) (flag : String) : List JsVal → Except String (List JsVal)
  | [] => .ok []
  | e :: rest =>
    match e with
    | .vStr s =>
      match handleTypeScalar fsRead subEntry (.vStr (trimQuotes s)) flag with
      | .error msg => .error msg
      | .ok v =>
        match handleElems subEntry flag rest with
        | .error msg => .error msg
        | .ok vs => .ok (v :: vs)
    | _ => .error "TypeError: str.replace is not a function"

/-- Embeds `handleType` (src/index.js 152-220).  The `array` case splits a
string value on every comma (`value.split(',')`, line 190 — the split is not
quote-aware), clones the entry with `type := subType` and maps the elements
through the pipeline; other types go to `handleTypeScalar`. -/
def handleType (entry : FlagConfig) (value : JsVal) (flag : String) : Except String JsVal :=
  if entry.type = some "array" then
    let subEntry := { entry with type := entry.subType }
    match value with
    | .vStr s =>
      match handleElems fsRead subEntry flag ((splitComma s).map .vStr) with
      | .error msg => .error msg
      | .ok vs => .ok (.vArr vs)
    | .vArr xs =>
      match handleElems fsRead subEntry flag xs with
      | .error msg => .error msg
      | .ok vs => .ok (.vArr vs)
    | _ => .error "TypeError: value.map is not a function"
  else handleTypeScalar fsRead entry value flag

/-- Embeds `handleValue` (src/index.js 230-258): substitute the default for a
falsy value, trim quotes from a (truthy) string value, check the enum,
convert via `handleType`, and run the user validator. -/
def handleValue (entry : FlagConfig) (value0 : JsVal) (flag : String) : Except String JsVal :=
  let value1 := if !jsTruthy value0 && entry.default.isSome then entry.default.getD .vUndefined else value0
  let value2 :=
    match value1 with
    | .vStr s => if jsTruthy (.vStr s) then JsVal.vStr (trimQuotes s) else JsVal.vStr s
    | v => v
  if (match entry.enum with
      | some es => !es.contains value2
      | none => false) then
    let enumList := jsToStrArr (entry.enum.getD [])
    .error (s!"Invalid enum value for \x27{flag}\x27 must be in [{enumList}]")
  else
    match handleType fsRead entry value2 flag with
    | .error e => .error e
    | .ok v =>
      match entry.validator with
      | none => .ok v
      | some f =>
        match f v with
        | .ok none => .ok v
        | .ok (some v2) => .ok v2
        | .error m => .error (s!"Validator failed for argument for \x27{flag}\x27, \x27{m}\x27")

/-- Embeds `handleFlag` (src/index.js 268-291).  `curr.value` has already
been camel-cased by `parse`.  A short token resolves through the short-alias
map; an unresolved alias is JS `undefined`, which stringifies to the property
key `"undefined"` in the subsequent object accesses.  Note the duplicate
check reads `values[curr.value]` while the assignment writes `values[name]`. -/
def handleFlag (cfg : List (String × FlagConfig)) (sf : List (String × String))
    (vs : List (String × JsVal)) (curr : Token) (next : Option Token) :
    Except String (List (String × JsVal)) :=
  let nameStr :=
    if curr.isShort then
      match sf.lookup curr.value with
      | some n => n
      | none => "undefined"
    else curr.value
  match cfg.lookup nameStr with
  | none => .error (s!"Unknown flag \x27{nameStr}\x27")
  | some entry =>
    if jsTruthy (lookupVal vs curr.value) then
      .error (s!"Dublicate flag \x27{nameStr}\x27")
    else if entry.type ≠ some "boolean" && entry.default = none &&
        (match next with
         | none => true
         | some n => n.isFlag) then
      .error (s!"Flag \x27{nameStr}\x27 requires a value")
    else
      let value : JsVal :=
        if entry.type = some "boolean" then .vBool true
        else
          match next with
          | some n => .vStr n.value
          | none => .vUndefined
      match handleValue fsRead entry value nameStr with
      | .error e => .error e
      | .ok v => .ok (setVal vs nameStr v)

/-- Embeds the token scan of `parse` (src/index.js 423-441): one lookahead,
a skip flag for a consumed value token, the unhandled-value error, and the
`__append__` leftover rule.  `prev` is the previously scanned token
(`split[index - 1]`). -/
def runTokens (cfg : List (String × FlagConfig)) (sf : List (String × String)) :
    List Token → Option Token → Bool → List (String × JsVal) →
    Except String (List (String × JsVal))
  | [], _, _, vs => .ok vs
  | curr :: rest, prev, skip, vs =>
    if skip then runTokens cfg sf rest (some curr) false vs
    else
      let next := rest.head?
      if !curr.isFlag && next.isSome then
        .error (s!"Unhandled value {curr.value}")
      else if !curr.isFlag && next.isNone &&
          (match prev with
           | none => true
           | some p => !p.isFlag) then
        .ok (setVal vs "__append__" (.vStr curr.value))
      else
        let curr' : Token := { curr with value := camelCase curr.value }
        match handleFlag fsRead cfg sf vs curr' next with
        | .error e => .error e
        | .ok vs' =>
          runTokens cfg sf rest (some curr')
            (match next with
             | some n => !n.isFlag
             | none => false) vs'

/-- Embeds the trailing loop of `parse` (src/index.js 443-451): for every
schema flag whose current value is falsy, fail if it is required, otherwise
run a present default through `handleValue`. -/
def sweepDefaults (cfg : List (String × FlagConfig)) :
    List (String × FlagConfig) → List (String × JsVal) →
    Except String (List (String × JsVal))
  | [], vs => .ok vs
  | (k, fc) :: rest, vs =>
    if !jsTruthy (lookupVal vs k) then
      if fc.required then .error (s!"Flag \x27{k}\x27 is required but was not set")
      else
        match fc.default with
        | some _ =>
          match handleValue fsRead fc .vUndefined k with
          | .error e => .error e
          | .ok v => sweepDefaults cfg rest (setVal vs k v)
        | none => sweepDefaults cfg rest vs
    else sweepDefaults cfg rest vs

end Engine

/-- The mutable state of an `ArgumentParser` instance: the (normalized)
schema, the short-alias map, and the `values` object that `parse` fills in
(initialized once, in the constructor). -/
structure ParserState where
  description : String
  config : List (String × FlagConfig)
  shortFlags : List (String × String)
  values : List (String × JsVal)

/-- Result of a `parse` call: the JS `false` sentinel for help, or the
`values` mapping. -/
inductive ParseOutcome where
  | help : ParseOutcome
  | result : List (String × JsVal) → ParseOutcome
deriving DecidableEq, Repr

/-- Embeds `ArgumentParser.prototype.parse` (src/index.js 407-453): tokenize,
return the `false` sentinel if any flag token is literally `help`, scan the
tokens (camel-casing each processed flag token), then apply
required/default handling; the result is the instance's own `values` object,
so the returned state carries it too. -/
def parse (fsRead : String → String) (st : ParserState) (line : String) :
    Except String (ParseOutcome × ParserState) :=
  let split := splitArgs line
  if split.any (fun t => t.isFlag && t.value == "help") then .ok (.help, st)
  else
    match runTokens fsRead st.config st.shortFlags split none false st.values with
    | .error e => .error e
    | .ok vs =>
      match sweepDefaults fsRead st.config st.config vs with
      | .error e => .error e
      | .ok vs' => .ok (.result vs', { st with values := vs' })

/-- Projection of `parse` to its returned value (the outcome a caller sees). -/
def parseOut (fsRead : String → String) (st : ParserState) (line : String) :
    Except String ParseOutcome :=
  match parse fsRead st line with
  | .ok (o, _) => .ok o
  | .error e => .error e

/-- A file reader for schemas that use no `file` flags. -/
def noFs : String → String := fun _ => ""

/-- The long-flag name grammar `/^[\w_][\w_-]*$/` (src/index.js line 38). -/
def flagNameOk (s : String) : Bool :=
  match s.data with
  | [] => false
  | c :: rest => isWordChar c && rest.all isFlagNameChar

/-- JavaScript `x || d` defaulting on an optional string attribute: absent or
empty yields the default. -/
def jsOrStr (o : Option String) (d : String) : String :=
  match o with
  | some s => if s.data.isEmpty then d else s
  | none => d

/-- The `validTypes` list (src/index.js line 40). -/
def validTypes : List String := ["number", "integer", "string", "array", "file", "boolean"]

/-- The `validSubTypes` list (src/index.js line 41). -/
def validSubTypes : List String := ["number", "integer", "string", "file"]

/-- The implicit help entry the constructor assigns (src/index.js 33-36). -/
def helpEntry : FlagConfig :=
  { type := some "boolean", description := some "Show the help" }

/-- Embeds `config.help = {...}` (src/index.js line 33): overwrite an
existing `help` key in place, otherwise append it. -/
def insertHelp (config : List (String × FlagConfig)) : List (String × FlagConfig) :=
  if config.any (fun p => p.1 = "help") then
    config.map (fun p => if p.1 = "help" then ("help", helpEntry) else p)
  else config ++ [("help", helpEntry)]

/-- Truthiness of the `enum` attribute (any array object is truthy). -/
def enumTruthy (fc : FlagConfig) : Bool := fc.enum.isSome

/-- Truthiness of an optional string attribute. -/
def strTruthy (o : Option String) : Bool :=
  match o with
  | some s => !s.data.isEmpty
  | none => false

/-- The field mutations the constructor's per-flag loop applies to an entry
that passes validation: `printName := kebabCase(name)` (line 51),
`type := type || 'string'` (line 63) and `subType := subType || 'string'`
(line 68 — applied to every entry, array-typed or not). -/
def normalizeFields (flagName : String) (fc : FlagConfig) : FlagConfig :=
  { fc with printName := some (kebabCase flagName),
            type := some (jsOrStr fc.type "string"),
            subType := some (jsOrStr fc.subType "string") }

/-- The type of an entry after defaulting, `type || 'string'` (line 63). -/
def tyOf (fc : FlagConfig) : String := jsOrStr fc.type "string"

/-- The element type of an entry after defaulting, `subType || 'string'`. -/
def styOf (fc : FlagConfig) : String := jsOrStr fc.subType "string"

/-- Embeds the body of the constructor's per-flag loop (src/index.js 46-111)
for one flag, in source order: validate the name; set `printName`; check the
required/default conflict and the enum conflict (both read attributes the
loop has not modified yet, so they are checked on the input entry); default
and validate `type`; default `subType` and validate it for arrays; check the
regex restriction against the defaulted type; and register a `short` alias.
The `typeof` checks on `min`/`max`/`validator`/`short` (lines 86-101) hold by
typing in this model, and a string-valued `regex` attribute compiling to a
pattern (line 80) is subsumed by the pattern model.  Returns the normalized
entry (`normalizeFields`) and the updated short-alias map. -/
def normalizeEntry (flagName : String) (fc0 : FlagConfig) (shorts : List (String × String)) :
    Except String (FlagConfig × List (String × String)) :=
  if !flagNameOk flagName then
    .error (s!"Invalid flag {flagName}, long flags must match the flag name pattern")
  else if fc0.required && (match fc0.default with
      | some d => jsTruthy d
      | none => false) then
    .error "Flag value cannot be required and have a default"
  else if enumTruthy fc0 && (strTruthy fc0.type || strTruthy fc0.subType ||
      fc0.regex.isSome || qTruthy fc0.min || qTruthy fc0.max) then
    .error "Flag must not have any validation attributes if it is an enum"
  else if !validTypes.contains (tyOf fc0) then
    .error (s!"Invalid argument to type, {tyOf fc0} specified")
  else if tyOf fc0 = "array" && !validSubTypes.contains (styOf fc0) then
    .error (s!"Invalid argument to subType, {styOf fc0} specified")
  else if fc0.regex.isSome && (tyOf fc0 = "number" || tyOf fc0 = "integer") then
    .error (s!"Cannot use regex when type is {tyOf fc0}")
  else
    match fc0.short with
    | none => .ok (normalizeFields flagName fc0, shorts)
    | some s =>
      if s.data.isEmpty then .ok (normalizeFields flagName fc0, shorts)
      else
        match s.data with
        | [c] =>
          if !isWordChar c then
            .error "Invalid argument to short, string must match a single word character"
          else if (shorts.lookup s).isSome then
            .error (s!"Dublicate short flag {s}")
          else .ok (normalizeFields flagName fc0, shorts ++ [(s, flagName)])
        | _ => .error "Invalid argument to short, string must match a single word character"

/-- The constructor's `_.forEach` over the config (src/index.js line 46):
normalize every entry in order, threading the short-alias map. -/
def normList : List (String × FlagConfig) → List (String × String) →
    Except String (List (String × FlagConfig) × List (String × String))
  | [], shorts => .ok ([], shorts)
  | (k, fc) :: rest, shorts =>
    match normalizeEntry k fc shorts with
    | .error e => .error e
    | .ok (fc', shorts') =>
      match normList rest shorts' with
      | .error e => .error e
      | .ok (rest', shorts'') => .ok ((k, fc') :: rest', shorts'')

/-- Embeds the `ArgumentParser` constructor (src/index.js 29-112): insert the
implicit `help` entry, normalize and validate every entry (mutating the
caller's config in place — modelled by the returned `config`), and
initialize `values` and `shortFlags`. -/
def mkParser (description : String) (config : List (String × FlagConfig)) :
    Except String ParserState :=
  match normList (insertHelp config) [] with
  | .error e => .error e
  | .ok (cfg, shorts) =>
    .ok { description := description, config := cfg, shortFlags := shorts, values := [] }

/-- Extract the state of a successfully constructed parser. -/
def getParser (e : Except String ParserState) : ParserState :=
  match e with
  | .ok st => st
  | .error _ => { description := "", config := [], shortFlags := [], values := [] }

instance {ε α : Type} [DecidableEq ε] [DecidableEq α] : DecidableEq (Except ε α) := fun a b =>
  match a, b with
  | .ok x, .ok y =>
    match decEq x y with
    | isTrue h => isTrue (by rw [h])
    | isFalse h => isFalse (by intro e; cases e; exact h rfl)
  | .error x, .error y =>
    match decEq x y with
    | isTrue h => isTrue (by rw [h])
    | isFalse h => isFalse (by intro e; cases e; exact h rfl)
  | .ok _, .error _ => isFalse (by intro e; cases e)
  | .error _, .ok _ => isFalse (by intro e; cases e)

/-- Schema with a single boolean flag `a`, used to study instance reuse. -/
def c1Schema : List (String × FlagConfig) := [("a", { type := some "boolean" })]

/-- Freshly constructed parser over `c1Schema`. -/
def c1State : ParserState := getParser (mkParser "" c1Schema)

/-- The instance state left behind by a first successful `parse('--a')`. -/
def c1State2 : ParserState :=
  match parse noFs c1State "--a" with
  | .ok (_, st) => st
  | .error _ => c1State

/-- Claim C1 is false on the code: the `values` mapping is initialized in the
constructor, not per `parse` call, so a second `parse('--a')` on the same
instance sees the first call's assignment and fails with a duplicate-flag
error instead of returning the same result. -/
theorem c1_counterexample :
    parseOut noFs c1State "--a" = .ok (.result [("a", .vBool true)])
    ∧ parseOut noFs c1State2 "--a" = .error "Dublicate flag \x27a\x27"
    ∧ parseOut noFs c1State2 "--a" ≠ parseOut noFs c1State "--a" := by
  refine ⟨rfl, rfl, ?_⟩
  decide

/-- Amended C1: the result mapping is not created fresh per call — it is the
instance's own `values` object, mutated in place and returned, so state
persists across calls: after a successful `parse('--a')` the returned state
carries the assignment, and a second `parse('--a')` on that state fails with
a duplicate-flag error. -/
theorem c1_state_persists :
    parse noFs c1State "--a"
      = .ok (.result [("a", .vBool true)], { c1State with values := [("a", .vBool true)] })
    ∧ parse noFs { c1State with values := [("a", .vBool true)] } "--a"
      = .error "Dublicate flag \x27a\x27" := ⟨rfl, rfl⟩

/-- Schema `{a: {type:'array', subType:'integer'}}` of claim C3. -/
def c3IntSchema : List (String × FlagConfig) :=
  [("a", { type := some "array", subType := some "integer" })]

/-- Parser over `c3IntSchema`. -/
def c3IntState : ParserState := getParser (mkParser "" c3IntSchema)

/-- Schema `{a: {type:'array', subType:'string'}}` of claim C3. -/
def c3StrSchema : List (String × FlagConfig) :=
  [("a", { type := some "array", subType := some "string" })]

/-- Parser over `c3StrSchema`. -/
def c3StrState : ParserState := getParser (mkParser "" c3StrSchema)

/-- Claim C3 is false on the code for its quoted example: `handleType` splits
the raw array value on every comma (`value.split(',')`, src/index.js 190)
without regard to quotes, so `parse('--a "x,y",z')` does not yield
`{a:['x,y','z']}`. -/
theorem c3_counterexample :
    parseOut noFs c3StrState "--a \"x,y\",z"
      ≠ .ok (.result [("a", .vArr [.vStr "x,y", .vStr "z"])]) := by
  decide

/-- Amended C3: `parse('--a 1,2,3')` against subType `integer` does yield
`{a:[1,2,3]}` with each element coerced by the subType; but commas inside a
quoted element are split like any others — the quoted token survives the
tokenizer as one token, the array split is a plain comma split, and elements
are quote-stripped only when an element happens to be fully quoted after the
split — so `parse('--a "x,y",z')` yields `{a:['"x', 'y"', 'z']}`. -/
theorem c3_array_split :
    parseOut noFs c3IntState "--a 1,2,3"
      = .ok (.result [("a", .vArr [.vNum 1, .vNum 2, .vNum 3])])
    ∧ parseOut noFs c3StrState "--a \"x,y\",z"
      = .ok (.result [("a", .vArr [.vStr "\"x", .vStr "y\"", .vStr "z"])]) := ⟨rfl, rfl⟩

/-- Schema with three boolean flags short-aliased `a`, `b`, `c` (claim C6). -/
def c6Schema : List (String × FlagConfig) :=
  [("a", { type := some "boolean", short := some "a" }),
   ("b", { type := some "boolean", short := some "b" }),
   ("c", { type := some "boolean", short := some "c" })]

/-- Parser over `c6Schema`. -/
def c6State : ParserState := getParser (mkParser "" c6Schema)

/-- Claim C6: tokenizing `-abc` yields exactly the three short flag tokens
`a`, `b`, `c` in order, and parsing it against three independently declared
boolean flags with those short aliases yields `{a:true, b:true, c:true}`. -/
theorem c6_short_cluster :
    splitArgs "-abc"
      = [⟨true, true, "a"⟩, ⟨true, true, "b"⟩, ⟨true, true, "c"⟩]
    ∧ parseOut noFs c6State "-abc"
      = .ok (.result [("a", .vBool true), ("b", .vBool true), ("c", .vBool true)]) :=
  ⟨rfl, rfl⟩

/-- Schema with flag `verbose` short-aliased `v` (claim C7). -/
def c7Schema : List (String × FlagConfig) :=
  [("verbose", { type := some "boolean", short := some "v" })]

/-- Parser over `c7Schema`. -/
def c7State : ParserState := getParser (mkParser "" c7Schema)

/-- Claim C7 exposes a code bug: the duplicate check reads
`this.values[curr.value]` (the token text — the short character for a short
occurrence) while the assignment writes `this.values[name]` (the canonical
name), so assigning `verbose` twice through its short alias `v` (or once
long, once short) raises no duplicate-flag error; the parse succeeds. -/
theorem c7_no_duplicate_error :
    parseOut noFs c7State "-v -v" = .ok (.result [("verbose", .vBool true)])
    ∧ parseOut noFs c7State "--verbose -v" = .ok (.result [("verbose", .vBool true)]) :=
  ⟨rfl, rfl⟩

/-- Claim C2: whenever the token sequence of the input line contains a flag
token whose text is `help`, `parse` returns the help sentinel (JS `false`)
immediately — for every schema, regardless of any other flags in the line,
raising no validation error and leaving the instance state untouched
(src/index.js 409-417 run before any flag handling or required checks). -/
theorem c2_help_sentinel (f : String → String) (st : ParserState) (line : String)
    (h : (splitArgs line).any (fun t => t.isFlag && t.value == "help") = true) :
    parse f st line = .ok (.help, st) := by
  unfold parse
  simp [h]

/-- Schema with a required flag, to witness that a help token suppresses the
missing-required validation. -/
def c2Schema : List (String × FlagConfig) :=
  [("x", { type := some "string", required := true })]

/-- Parser over `c2Schema`. -/
def c2State : ParserState := getParser (mkParser "" c2Schema)

theorem c2_help_sentinel_witness :
    (splitArgs "--x foo --help").any (fun t => t.isFlag && t.value == "help") = true
    ∧ parse noFs c2State "--x foo --help" = .ok (.help, c2State) :=
  ⟨by decide, c2_help_sentinel noFs c2State "--x foo --help" (by decide)⟩

/-- Claim C4: for a numeric flag, when both bounds are set (as the code tests
presence: truthily, i.e. nonzero — compare C9) and the parsed value lies
outside `[min, max]`, the bound check fails with the single combined message
naming both bounds; otherwise a min violation and a max violation are
reported individually, each naming its own bound (src/index.js 172-181). -/
theorem c4_bounds (flag : String) (mn mx v mn2 v2 mx3 v3 : ℚ) (mxo2 mno3 : Option ℚ)
    (h1 : mn ≠ 0) (h2 : mx ≠ 0) (h3 : v < mn ∨ mx < v)
    (h4 : mn2 ≠ 0) (h5 : qTruthy mxo2 = false) (h6 : v2 < mn2)
    (h7 : mx3 ≠ 0) (h8 : qTruthy mno3 = false) (h9 : mx3 < v3) :
    checkBounds (some mn) (some mx) v flag = .error (msgBetween flag mn mx)
    ∧ checkBounds (some mn2) mxo2 v2 flag = .error (msgMin flag mn2)
    ∧ checkBounds mno3 (some mx3) v3 flag = .error (msgMax flag mx3) := by
  refine ⟨?_, ?_, ?_⟩
  · have hcond : (qTruthy (some mn) && qTruthy (some mx) &&
        decide ((some mx).getD 0 < v ∨ (some mn).getD 0 > v)) = true := by
      simp [qTruthy, h1, h2]
      rcases h3 with h | h
      · right
        exact h
      · left
        exact h
    unfold checkBounds
    rw [hcond]
    rfl
  · have hcond : (qTruthy (some mn2) && qTruthy mxo2 &&
        decide (mxo2.getD 0 < v2 ∨ (some mn2).getD 0 > v2)) = false := by
      simp [h5]
    have hcond2 : (qTruthy (some mn2) && decide (v2 < (some mn2).getD 0)) = true := by
      simp [qTruthy, h4]
      exact h6
    unfold checkBounds
    rw [hcond, hcond2]
    rfl
  · have hcond : (qTruthy mno3 && qTruthy (some mx3) &&
        decide ((some mx3).getD 0 < v3 ∨ mno3.getD 0 > v3)) = false := by
      simp [h8]
    have hcond2 : (qTruthy mno3 && decide (v3 < mno3.getD 0)) = false := by
      simp [h8]
    have hcond3 : (qTruthy (some mx3) && decide (v3 > (some mx3).getD 0)) = true := by
      simp [qTruthy, h7]
      exact h9
    unfold checkBounds
    rw [hcond, hcond2, hcond3]
    rfl

theorem c4_bounds_witness :
    ((1 : ℚ) ≠ 0 ∧ (5 : ℚ) ≠ 0 ∧ ((9 : ℚ) < 1 ∨ (5 : ℚ) < 9)
      ∧ qTruthy none = false ∧ (0 : ℚ) < 1 ∧ (5 : ℚ) < 9)
    ∧ checkBounds (some 1) (some 5) 9 "n" = .error (msgBetween "n" 1 5)
    ∧ checkBounds (some 1) none 0 "n" = .error (msgMin "n" 1)
    ∧ checkBounds none (some 5) 9 "n" = .error (msgMax "n" 5) :=
  ⟨by norm_num [qTruthy],
    c4_bounds "n" 1 5 9 1 0 5 9 none none
      (by norm_num) (by norm_num) (by norm_num)
      (by norm_num) (by simp [qTruthy]) (by norm_num)
      (by norm_num) (by simp [qTruthy]) (by norm_num)⟩

/-- Claim C9: a numeric bound equal to `0` is never enforced — the JS `&&`
presence tests (`entry.min && ...`, `entry.max && ...`) treat a zero bound as
absent, so the bound check behaves exactly as if that bound were unset, and
any finite value (in particular one strictly below a min of 0 or strictly
above a max of 0) passes when no other bound rejects it. -/
theorem c9_zero_bounds (mno mxo : Option ℚ) (v : ℚ) (flag : String) :
    checkBounds (some 0) mxo v flag = checkBounds none mxo v flag
    ∧ checkBounds mno (some 0) v flag = checkBounds mno none v flag
    ∧ checkBounds (some 0) none v flag = .ok v
    ∧ checkBounds none (some 0) v flag = .ok v := by
  have h0 : qTruthy (some 0) = false := by simp [qTruthy]
  refine ⟨?_, ?_, ?_, ?_⟩ <;> simp [checkBounds, h0, qTruthy]

/-- The trailing required/default loop is the identity when no schema entry
is required or carries a default. -/
theorem sweepDefaults_noop (f : String → String) (cfg0 cfg : List (String × FlagConfig))
    (vs : List (String × JsVal))
    (h : ∀ p ∈ cfg, p.2.default = none ∧ p.2.required = false) :
    sweepDefaults f cfg0 cfg vs = .ok vs := by
  induction cfg generalizing vs with
  | nil => rfl
  | cons p rest ih =>
    obtain ⟨k, fc⟩ := p
    have hp := h (k, fc) (List.mem_cons_self _ _)
    have hrest : ∀ q ∈ rest, q.2.default = none ∧ q.2.required = false :=
      fun q hq => h q (List.mem_cons_of_mem _ hq)
    unfold sweepDefaults
    rw [hp.1, hp.2]
    cases hjs : jsTruthy (lookupVal vs k) <;> simp [hjs, ih vs hrest]

/-- Amended claim C8: for a freshly constructed parser whose schema has no
defaults and also no required flags, `parse('leftover')` records the bare
trailing token under the reserved `__append__` key, binds it to no flag, and
returns that single binding without error (src/index.js 429-433). -/
theorem c8_leftover (st : ParserState)
    (h1 : ∀ p ∈ st.config, p.2.default = none ∧ p.2.required = false)
    (h2 : st.values = []) :
    parseOut noFs st "leftover" = .ok (.result [("__append__", .vStr "leftover")]) := by
  have hsplit : splitArgs "leftover" = [⟨false, false, "leftover"⟩] := rfl
  have hsweep := sweepDefaults_noop noFs st.config st.config
    [("__append__", .vStr "leftover")] h1
  unfold parseOut parse
  rw [hsplit]
  simp [runTokens, h2, setVal, hsweep]

/-- Schema with a required flag and no defaults, refuting claim C8 as
stated. -/
def c8ReqSchema : List (String × FlagConfig) :=
  [("x", { type := some "string", required := true })]

/-- Parser over `c8ReqSchema`. -/
def c8ReqState : ParserState := getParser (mkParser "" c8ReqSchema)

/-- Claim C8 is false as stated: it quantifies over schemas with no defaults,
but for such a schema containing a required flag, `parse('leftover')` raises
the missing-required error (the required check runs after the leftover is
recorded), rather than returning the leftover binding without error. -/
theorem c8_counterexample :
    (∀ p ∈ c8ReqState.config, p.2.default = none)
    ∧ parseOut noFs c8ReqState "leftover"
        = .error "Flag \x27x\x27 is required but was not set" := by
  refine ⟨by decide, rfl⟩

/-- Schema with one optional, defaultless flag, witnessing `c8_leftover`. -/
def c8WSchema : List (String × FlagConfig) := [("opt", { type := some "string" })]

/-- Parser over `c8WSchema`. -/
def c8WState : ParserState := getParser (mkParser "" c8WSchema)

theorem c8_leftover_witness :
    ((∀ p ∈ c8WState.config, p.2.default = none ∧ p.2.required = false)
      ∧ c8WState.values = [])
    ∧ parseOut noFs c8WState "leftover" = .ok (.result [("__append__", .vStr "leftover")]) :=
  ⟨⟨by decide, rfl⟩, c8_leftover c8WState (by decide) rfl⟩

/-- A successful `normalizeEntry` returns exactly the `normalizeFields`
mutation of the input entry. -/
theorem normalizeEntry_ok (k : String) (fc : FlagConfig) (sh : List (String × String))
    (fc' : FlagConfig) (sh' : List (String × String))
    (h : normalizeEntry k fc sh = .ok (fc', sh')) :
    fc' = normalizeFields k fc := by
  unfold normalizeEntry at h
  split_ifs at h <;> try simp at h
  all_goals try (split at h <;> try simp at h)
  all_goals try (split_ifs at h <;> try simp at h)
  all_goals try exact h.1.symm
  all_goals try (split at h <;> try simp at h)
  all_goals try exact h.1.symm
  all_goals try (split_ifs at h <;> try simp at h)
  all_goals exact h.1.symm

/-- Every input entry reappears, normalized, in the output of the
constructor's loop. -/
theorem normList_mem (l : List (String × FlagConfig)) :
    ∀ (sh : List (String × String)) (l' : List (String × FlagConfig))
      (sh' : List (String × String)), normList l sh = .ok (l', sh') →
      ∀ k v, (k, v) ∈ l → (k, normalizeFields k v) ∈ l' := by
  induction l with
  | nil =>
    intro sh l' sh' h k v hm
    simp at hm
  | cons p rest ih =>
    intro sh l' sh' h k v hm
    obtain ⟨kp, fcp⟩ := p
    unfold normList at h
    split at h
    · simp at h
    · rename_i fc1 sh1 heq
      split at h
      · simp at h
      · rename_i rest' sh2 heq2
        simp at h
        obtain ⟨hl, hsh⟩ := h
        subst hl
        rcases List.mem_cons.mp hm with hh | ht
        · have hk : k = kp := congrArg Prod.fst hh
          have hv : v = fcp := congrArg Prod.snd hh
          have hfc : fc1 = normalizeFields kp fcp := normalizeEntry_ok kp fcp sh fc1 sh1 heq
          rw [hk, hv, ← hfc]
          exact List.mem_cons_self _ _
        · exact List.mem_cons_of_mem _ (ih sh1 rest' sh2 heq2 k v ht)

/-- The constructor's loop preserves the keys and positions of the config
and rewrites every entry by `normalizeFields`. -/
theorem normList_zip (l : List (String × FlagConfig)) :
    ∀ (sh : List (String × String)) (l' : List (String × FlagConfig))
      (sh' : List (String × String)), normList l sh = .ok (l', sh') →
      l'.length = l.length ∧
      ∀ p ∈ l.zip l', p.2.1 = p.1.1 ∧ p.2.2 = normalizeFields p.1.1 p.1.2 := by
  induction l with
  | nil =>
    intro sh l' sh' h
    unfold normList at h
    simp at h
    obtain ⟨h1, h2⟩ := h
    subst h1
    exact ⟨rfl, by simp⟩
  | cons p rest ih =>
    intro sh l' sh' h
    obtain ⟨kp, fcp⟩ := p
    unfold normList at h
    split at h
    · simp at h
    · rename_i fc1 sh1 heq
      split at h
      · simp at h
      · rename_i rest' sh2 heq2
        simp at h
        obtain ⟨hl, hsh⟩ := h
        subst hl
        obtain ⟨hlen, hall⟩ := ih sh1 rest' sh2 heq2
        refine ⟨by simp [hlen], ?_⟩
        intro q hq
        rcases List.mem_cons.mp hq with hh | ht
        · subst hh
          exact ⟨rfl, normalizeEntry_ok kp fcp sh fc1 sh1 heq⟩
        · exact hall q ht

/-- The mapping handed to the constructor's loop always holds the implicit
help entry. -/
theorem insertHelp_mem (config : List (String × FlagConfig)) :
    ("help", helpEntry) ∈ insertHelp config := by
  unfold insertHelp
  split_ifs with hc
  · obtain ⟨p, hp, hkey⟩ := List.any_eq_true.mp hc
    have hk : p.1 = "help" := of_decide_eq_true hkey
    exact List.mem_map.mpr ⟨p, hp, by simp [hk]⟩
  · simp

/-- Claim C10: constructing a parser rewrites the caller's schema mapping in
place (modelled by the returned `st.config`, see `mkParser`): afterwards it
contains the added `help` entry of type `boolean`, and every entry — paired
positionally with the corresponding input entry of the help-augmented
mapping — keeps its key and has `printName` set to the kebab-cased flag
name, `type` defaulted to `string` when absent, and `subType` defaulted to
`string` when absent, whether or not its type is `array`. -/
theorem c10_constructor_normalizes (desc : String) (config : List (String × FlagConfig))
    (st : ParserState) (h : mkParser desc config = .ok st) :
    (("help", normalizeFields "help" helpEntry) ∈ st.config
      ∧ (normalizeFields "help" helpEntry).type = some "boolean"
      ∧ (normalizeFields "help" helpEntry).subType = some "string"
      ∧ (normalizeFields "help" helpEntry).printName = some "help")
    ∧ st.config.length = (insertHelp config).length
    ∧ ∀ p ∈ (insertHelp config).zip st.config,
        p.2.1 = p.1.1 ∧ p.2.2.printName = some (kebabCase p.1.1)
        ∧ p.2.2.type = some (jsOrStr p.1.2.type "string")
        ∧ p.2.2.subType = some (jsOrStr p.1.2.subType "string") := by
  unfold mkParser at h
  split at h
  · simp at h
  · rename_i cfg shorts heq
    simp at h
    subst h
    obtain ⟨hlen, hall⟩ := normList_zip (insertHelp config) [] cfg shorts heq
    refine ⟨⟨?_, rfl, rfl, rfl⟩, hlen, ?_⟩
    · exact normList_mem (insertHelp config) [] cfg shorts heq "help" helpEntry
        (insertHelp_mem config)
    · intro p hp
      obtain ⟨h1, h2⟩ := hall p hp
      refine ⟨h1, ?_, ?_, ?_⟩ <;> rw [h2] <;> rfl

/-- An input schema exercising the normalization defaults: a camel-cased
name, no `type`, no `subType`. -/
def c10Schema : List (String × FlagConfig) := [("myFlag", {})]

/-- Parser over `c10Schema`. -/
def c10State : ParserState := getParser (mkParser "prog" c10Schema)

theorem c10_constructor_normalizes_witness :
    mkParser "prog" c10Schema = .ok c10State
    ∧ ((("help", normalizeFields "help" helpEntry) ∈ c10State.config
        ∧ (normalizeFields "help" helpEntry).type = some "boolean"
        ∧ (normalizeFields "help" helpEntry).subType = some "string"
        ∧ (normalizeFields "help" helpEntry).printName = some "help")
      ∧ c10State.config.length = (insertHelp c10Schema).length
      ∧ ∀ p ∈ (insertHelp c10Schema).zip c10State.config,
          p.2.1 = p.1.1 ∧ p.2.2.printName = some (kebabCase p.1.1)
          ∧ p.2.2.type = some (jsOrStr p.1.2.type "string")
          ∧ p.2.2.subType = some (jsOrStr p.1.2.subType "string")) :=
  ⟨rfl, c10_constructor_normalizes "prog" c10Schema c10State rfl⟩

/-- A digit character differs from any non-digit character. -/
theorem digit_ne (c : Char) (h : c.isDigit = true) (d : Char) (hd : d.isDigit = false) :
    ¬ c = d := fun e => by
  subst e
  rw [h] at hd
  exact Bool.noConfusion hd

/-- Digits are not JavaScript whitespace. -/
theorem digit_not_ws (c : Char) (h : c.isDigit = true) : isWsChar c = false := by
  simp [isWsChar]
  refine ⟨?_, ?_, ?_, ?_, ?_, ?_, ?_, ?_⟩ <;> exact digit_ne c h _ (by decide)

/-- Digits are not quote characters. -/
theorem digit_not_quote (c : Char) (h : c.isDigit = true) : isQuoteChar c = false := by
  simp [isQuoteChar]
  exact ⟨digit_ne c h _ (by decide), digit_ne c h _ (by decide)⟩

/-- Digits belong to the bare-value character class. -/
theorem digit_bare1 (c : Char) (h : c.isDigit = true) : isBare1 c = true := by
  simp [isBare1, digit_not_quote c h, digit_not_ws c h]
  exact ⟨digit_ne c h _ (by decide), digit_ne c h _ (by decide)⟩

/-- A take-while over a list all of whose elements satisfy the predicate is
the whole list. -/
theorem takeWhile_eq_self {α} (p : α → Bool) (l : List α) (h : ∀ c ∈ l, p c = true) :
    l.takeWhile p = l := by
  induction l with
  | nil => rfl
  | cons a t ih =>
    rw [List.takeWhile_cons, h a (List.mem_cons_self _ _)]
    simp [ih (fun c hc => h c (List.mem_cons_of_mem _ hc))]

/-- A digit string contains no decimal point. -/
theorem digits_no_dot (l : List Char) (h : ∀ c ∈ l, c.isDigit = true) :
    l.any (fun c => c = '.') = false := by
  induction l with
  | nil => rfl
  | cons a t ih =>
    simp [List.any_cons, ih (fun c hc => h c (List.mem_cons_of_mem _ hc))]
    exact digit_ne a (h a (List.mem_cons_self _ _)) _ (by decide)

/-- Tokenizing `--f N` for a digit string `N`: the regex scan yields the long
flag token `f` followed by one bare value token holding all of `N`. -/
theorem splitArgs_digits (d : Char) (ds : List Char)
    (h : ∀ c ∈ d :: ds, c.isDigit = true) :
    splitArgs (String.mk ('-' :: '-' :: 'f' :: ' ' :: d :: ds))
      = [⟨true, false, "f"⟩, ⟨false, false, String.mk (d :: ds)⟩] := by
  have hd : d.isDigit = true := h d (List.mem_cons_self _ _)
  have hds : ∀ c ∈ ds, c.isDigit = true := fun c hc => h c (List.mem_cons_of_mem _ hc)
  have hne : ¬ d = '-' := digit_ne d hd _ (by decide)
  have hq_sp : isQuoteChar ' ' = false := by decide
  have hb_sp : isBare1 ' ' = false := by decide
  have hfm1 : flagMatch ('-' :: '-' :: 'f' :: ' ' :: d :: ds)
      = some (true, ['f'], ' ' :: d :: ds) := by
    simp [flagMatch, isWordChar, isFlagNameChar, List.takeWhile_cons]
  have hfm2 : flagMatch (' ' :: d :: ds) = none := by
    simp [flagMatch]
  have hfm3 : flagMatch (d :: ds) = none := by
    simp [flagMatch, hne]
  have hmq2 : matchQuoted (' ' :: d :: ds) = none := by
    simp [matchQuoted, hq_sp]
  have hms2 : matchSeg1 (' ' :: d :: ds) = none := by
    simp [matchSeg1, hmq2, hb_sp]
  have hmq3 : matchQuoted (d :: ds) = none := by
    simp [matchQuoted, digit_not_quote d hd]
  have htw : ds.takeWhile isBare1 = ds :=
    takeWhile_eq_self _ _ (fun c hc => digit_bare1 c (hds c hc))
  have hms3 : matchSeg1 (d :: ds) = some (d :: ds, []) := by
    simp [matchSeg1, hmq3, digit_bare1 d hd, htw, List.drop_length]
  show scanAux (('-' :: '-' :: 'f' :: ' ' :: d :: ds).length + 1)
      ('-' :: '-' :: 'f' :: ' ' :: d :: ds) = _
  simp only [List.length_cons, List.length_nil]
  simp only [scanAux, hfm1, hfm2, hfm3, hms2, hms3, contLoop]
  simp

/-- JavaScript `parseInt` evaluates a digit string to its base-10 value. -/
theorem parseIntJs_digits (d : Char) (ds : List Char)
    (h : ∀ c ∈ d :: ds, c.isDigit = true) :
    parseIntJs (String.mk (d :: ds)) = some ((decListVal (d :: ds) : Int)) := by
  have hd : d.isDigit = true := h d (List.mem_cons_self _ _)
  have htw : (d :: ds).takeWhile Char.isDigit = d :: ds := takeWhile_eq_self _ _ h
  have hdw : (d :: ds).dropWhile isWsChar = d :: ds := by
    rw [List.dropWhile_cons, digit_not_ws d hd]
    simp
  have hne1 : ¬ d = '-' := digit_ne d hd _ (by decide)
  have hne2 : ¬ d = '+' := digit_ne d hd _ (by decide)
  unfold parseIntJs
  rw [show (String.mk (d :: ds)).data = d :: ds from rfl, hdw]
  simp only [hne1, hne2, if_false, ite_false]
  unfold parseIntCore
  cases ds with
  | nil =>
    simp [htw]
  | cons e es =>
    have he : ¬ (e = 'x' ∨ e = 'X') := by
      rintro (rfl | rfl) <;> simp at h
    simp only [htw]
    rw [if_neg (by simp; intro _; simpa using he)]
    simp [htw]

/-- The schema `{f: {type:'integer'}}` of claim C5. -/
def c5Schema : List (String × FlagConfig) := [("f", { type := some "integer" })]

/-- Parser over `c5Schema`. -/
def c5State : ParserState := getParser (mkParser "" c5Schema)

/-- The normalized config entry of flag `f`. -/
def c5fCfg : FlagConfig := normalizeFields "f" { type := some "integer" }

/-- The normalized config entry of the implicit `help` flag. -/
def c5HelpCfg : FlagConfig := normalizeFields "help" helpEntry

/-- Explicit form of `c5State`. -/
theorem c5State_eq : c5State =
    { description := "", config := [("f", c5fCfg), ("help", c5HelpCfg)],
      shortFlags := [], values := [] } := rfl

/-- The value pipeline on an unconstrained integer flag maps a digit string
to its base-10 numeric value. -/
theorem handleValue_int_digits (d : Char) (ds : List Char)
    (h : ∀ c ∈ d :: ds, c.isDigit = true) :
    handleValue noFs c5fCfg (.vStr (String.mk (d :: ds))) "f"
      = .ok (.vNum ((decListVal (d :: ds) : Int) : ℚ)) := by
  have hd := h d (List.mem_cons_self _ _)
  have hc : c5fCfg = { type := some "integer", subType := some "string", printName := some "f" } := rfl
  have hdata : (String.mk (d :: ds)).data = d :: ds := rfl
  have htrim : trimQuotes (String.mk (d :: ds)) = String.mk (d :: ds) := by
    simp [trimQuotes, digit_not_quote d hd]
  have htr : jsTruthy (.vStr (String.mk (d :: ds))) = true := by
    simp [jsTruthy]
  have hdot : (d :: ds).any (fun c => c = '.') = false := digits_no_dot (d :: ds) h
  have hpi := parseIntJs_digits d ds h
  rw [hc]
  simp [handleValue, htr, htrim, handleType, handleTypeScalar, jsHasDot, jsToStr,
    hdata, hdot, parseIntOfVal, hpi, numFinish, checkBounds, qTruthy]
  rfl

/-- Full run of `parse` on `--f N` for a digit string `N`. -/
theorem c5_parse_digits (d : Char) (ds : List Char)
    (h2 : ∀ c ∈ d :: ds, c.isDigit = true) :
    parseOut noFs c5State (String.mk ('-' :: '-' :: 'f' :: ' ' :: d :: ds))
      = .ok (.result [("f", .vNum ((decListVal (d :: ds) : Int) : ℚ))]) := by
  have hhv := handleValue_int_digits d ds h2
  have hsweep := sweepDefaults_noop noFs [("f", c5fCfg), ("help", c5HelpCfg)]
      [("f", c5fCfg), ("help", c5HelpCfg)]
      [("f", .vNum ((decListVal (d :: ds) : ℚ)))] (by decide)
  have hcam : camelCase "f" = "f" := rfl
  have hlk : List.lookup "f" [("f", c5fCfg), ("help", c5HelpCfg)] = some c5fCfg := rfl
  have hty : c5fCfg.type = some "integer" := rfl
  have hdef : c5fCfg.default = none := rfl
  unfold parseOut parse
  rw [splitArgs_digits d ds h2, c5State_eq]
  simp +decide [runTokens, handleFlag, hcam, hlk, hty, hdef, hhv, hsweep, setVal,
    lookupVal, jsTruthy]

/-- Amended claim C5: for the unconstrained integer flag `f` and every
nonempty digit string `N`, `parse('--f N')` yields `{f: N}` with `N` read as
a base-10 integer; every raw value containing a decimal point fails the
coercion with the not-an-integer error; and a raw value from which
`parseInt` can extract no number fails with the not-a-number error.
(Negative literals are excluded: see the counterexample — the tokenizer
turns `-5` into a short-flag cluster.) -/
theorem c5_integer_roundtrip (cs : List Char) (s t : String)
    (h1 : cs ≠ []) (h2 : ∀ c ∈ cs, c.isDigit = true)
    (h3 : s.data.any (fun c => c = '.') = true)
    (h4 : t.data.any (fun c => c = '.') = false)
    (h5 : parseIntJs t = none) :
    parseOut noFs c5State (String.mk ('-' :: '-' :: 'f' :: ' ' :: cs))
      = .ok (.result [("f", .vNum ((decListVal cs : Int) : ℚ))])
    ∧ handleType noFs c5fCfg (.vStr s) "f"
      = .error "Argument for \x27f\x27 must be an integer value"
    ∧ handleType noFs c5fCfg (.vStr t) "f"
      = .error "Could not parse number from argument for \x27f\x27" := by
  obtain ⟨d, ds, rfl⟩ : ∃ d ds, cs = d :: ds := by
    cases cs with
    | nil => exact absurd rfl h1
    | cons a t2 => exact ⟨a, t2, rfl⟩
  have hty : c5fCfg.type = some "integer" := rfl
  refine ⟨c5_parse_digits d ds h2, ?_, ?_⟩
  · simp [handleType, handleTypeScalar, hty, jsHasDot, jsToStr, h3]
    rfl
  · simp [handleType, handleTypeScalar, hty, jsHasDot, jsToStr, h4, parseIntOfVal, h5,
      numFinish]
    rfl

/-- Claim C5 is false as stated for negative literals: `-5` is tokenized as
a short-flag cluster (the flag alternative of the regex matches a dash
followed by word characters), so the integer flag sees a flag token instead
of a value and `parse('--f -5')` fails with a missing-value error rather
than yielding `{f: -5}`. -/
theorem c5_counterexample :
    parseOut noFs c5State "--f -5" = .error "Flag \x27f\x27 requires a value"
    ∧ parseOut noFs c5State "--f -5" ≠ .ok (.result [("f", .vNum (-5))]) := ⟨rfl, by decide⟩

theorem c5_integer_roundtrip_witness :
    ((['4', '2'] : List Char) ≠ [] ∧ (∀ c ∈ (['4', '2'] : List Char), c.isDigit = true)
      ∧ ("3.5" : String).data.any (fun c => c = '.') = true
      ∧ ("dongs" : String).data.any (fun c => c = '.') = false
      ∧ parseIntJs "dongs" = none)
    ∧ (parseOut noFs c5State (String.mk ('-' :: '-' :: 'f' :: ' ' :: ['4', '2']))
        = .ok (.result [("f", .vNum ((decListVal ['4', '2'] : Int) : ℚ))])
      ∧ handleType noFs c5fCfg (.vStr "3.5") "f"
          = .error "Argument for \x27f\x27 must be an integer value"
      ∧ handleType noFs c5fCfg (.vStr "dongs") "f"
          = .error "Could not parse number from argument for \x27f\x27") :=
  ⟨by decide, c5_integer_roundtrip ['4', '2'] "3.5" "dongs" (by decide) (by decide)
    (by decide) (by decide) (by decide)⟩
